import Mathlib

/-!
Verification of the IoTaWatt Kindle dashboard rendering pipeline
(`dashboard/bin/run.py`).

The embedding models the pure rendering core of the script:
`convert_sensor_data`, `scale_y`, `normalise`, `get_data_region`,
`normalise_data` and `generate_svg`.  Numbers are modelled as exact
rationals (`ℚ`); Python float arithmetic on the values occurring here is
exact except for the textual rendering of numbers, which no theorem below
depends on.  Python exceptions are modelled by the `Err` type and
`Except`; a raised exception is an `Except.error`.  The module constant
`LOGARITHMIC` (line 23 of the source, set to `False`) and the function
`math.log` are modelled as parameters `logarithmic : Bool` and
`logfn : ℚ → ℚ` so that both settings of the constant can be analysed;
theorems about the shipped configuration instantiate `logarithmic := false`.
The process-wide randomness (`random.choice` for the two inversion flags)
is modelled by two injected booleans `rand_invert`,
`rand_invert_highlight`, consulted exactly where the source consults
`random.choice`.
-/

/-- Python exceptions that the script can raise, plus
`degenerateRegion`, which names the `DegenerateRegionError` of the
specification's error taxonomy: the source never defines or raises such
an error, and the constructor exists only so that statements about it can
be written.  `timeNotFirst` is `Exception("Time not first element")`,
`lengthMismatch` is `Exception("Data not all at the same length")`,
`indexError` is Python's `IndexError` from an out-of-range subscript,
`domainError` is the `ValueError: math domain error` raised by `math.log`
on a non-positive argument, `zeroDivision` is `ZeroDivisionError` from
float division by zero, and `emptyMin` is the `ValueError` raised by
`min()`/`max()` on an empty sequence. -/
inductive Err where
  | timeNotFirst
  | lengthMismatch
  | indexError
  | domainError
  | zeroDivision
  | emptyMin
  | degenerateRegion
deriving DecidableEq

/-- The `Region` dataclass (source lines 26-31). -/
structure Region where
  min_x : ℚ
  min_y : ℚ
  max_x : ℚ
  max_y : ℚ
deriving DecidableEq

/-- A Python `dict[str, list[tuple[float, float]]]` with its insertion
order: the sensor data passed to `generate_svg`. -/
abbrev SensorData := List (String × List (ℚ × ℚ))

/-- The raw JSON payload consumed by `convert_sensor_data`:
`{"labels": [...], "data": [[...], ...]}`. -/
structure RawData where
  labels : List String
  data : List (List ℚ)

instance {ε α : Type} [DecidableEq ε] [DecidableEq α] : DecidableEq (Except ε α) := fun
  | .error e, .error f =>
    decidable_of_iff (e = f) ⟨fun h => by rw [h], fun h => by injection h⟩
  | .error _, .ok _ => .isFalse (fun h => by injection h)
  | .ok _, .error _ => .isFalse (fun h => by injection h)
  | .ok a, .ok b =>
    decidable_of_iff (a = b) ⟨fun h => by rw [h], fun h => by injection h⟩

/-- Left-to-right effectful traversal of a list in `Except`, mirroring a
Python loop that can raise: the first raised exception aborts the loop. -/
def mapE {α β : Type} (f : α → Except Err β) : List α → Except Err (List β)
  | [] => .ok []
  | a :: as => do
    let b ← f a
    let bs ← mapE f as
    pure (b :: bs)

/-- Python `dict` assignment `d[k] = v`: if the key is present its value is
replaced in place (insertion order kept), otherwise the pair is appended. -/
def dictInsert {α : Type} : List (String × α) → String → α → List (String × α)
  | [], k, v => [(k, v)]
  | (k', v') :: rest, k, v =>
    if k' = k then (k, v) :: rest else (k', v') :: dictInsert rest k v

/-- A Python `dict` comprehension `{a: b for a, b in pairs}`. -/
def dictFromPairs {α : Type} (pairs : List (String × α)) : List (String × α) :=
  pairs.foldl (fun d kv => dictInsert d kv.1 kv.2) []

/-- Python `min` over a nonempty list (comparison-based, like float `min`). -/
def qmin (a b : ℚ) : ℚ := if a ≤ b then a else b

/-- Python `max` over a nonempty list (comparison-based, like float `max`). -/
def qmax (a b : ℚ) : ℚ := if b ≤ a then a else b

/-- `scale_y` (source lines 71-74): identity when `LOGARITHMIC` is false,
`math.log` otherwise.  `math.log` raises `ValueError: math domain error`
on a non-positive argument; on positive arguments its value is the
abstract `logfn`, over which every theorem quantifies. -/
def scale_y (logarithmic : Bool) (logfn : ℚ → ℚ) (value : ℚ) : Except Err ℚ :=
  if logarithmic then
    if value ≤ 0 then .error .domainError else .ok (logfn value)
  else .ok value

/-- `convert_sensor_data` (source lines 78-99): validates the labels and
row lengths, then extracts one `(time, scale_y(value))` point list per
column `i = 1 .. len(row)-1` and pairs it with `labels[1:]` by `zip` into
a dict.  `labels[0]` and `sensor_data[0]` are Python subscripts that raise
`IndexError` on an empty list. -/
def convert_sensor_data (logarithmic : Bool) (logfn : ℚ → ℚ) (raw : RawData) :
    Except Err SensorData :=
  match raw.labels with
  | [] => .error .indexError
  | l0 :: rest =>
    if l0 ≠ "Time" then .error .timeNotFirst
    else
      match raw.data with
      | [] => .error .indexError
      | r0 :: _ =>
        if (raw.data.all fun row => row.length = r0.length) = false then
          .error .lengthMismatch
        else do
          let points ← mapE (fun i =>
              mapE (fun row => do
                  let y ← scale_y logarithmic logfn (row.getD i 0)
                  pure (row.getD 0 0, y))
                raw.data)
            (List.range' 1 (r0.length - 1))
          pure (dictFromPairs (rest.zip points))

/-- The pure affine map underlying `normalise` (source lines 66-68). -/
def normP (value min_val max_val new_min new_max : ℚ) : ℚ :=
  new_min + (value - min_val) * (new_max - new_min) / (max_val - min_val)

/-- `normalise` (source lines 66-68).  Python float division raises
`ZeroDivisionError` when `max_val - min_val` is zero. -/
def normalise (value min_val max_val new_min new_max : ℚ) : Except Err ℚ :=
  if max_val - min_val = 0 then .error .zeroDivision
  else .ok (normP value min_val max_val new_min new_max)

/-- The flattened point list `all_points` of `get_data_region`
(source line 103). -/
def allPoints (data : SensorData) : List (ℚ × ℚ) :=
  (data.map Prod.snd).flatten

/-- `get_data_region` (source lines 102-109): the componentwise min/max of
all points of all series; `min`/`max` on an empty sequence raise
`ValueError`. -/
def get_data_region (data : SensorData) : Except Err Region :=
  match allPoints data with
  | [] => .error .emptyMin
  | p :: ps =>
    .ok { min_x := (ps.map Prod.fst).foldl qmin p.1
        , min_y := (ps.map Prod.snd).foldl qmin p.2
        , max_x := (ps.map Prod.fst).foldl qmax p.1
        , max_y := (ps.map Prod.snd).foldl qmax p.2 }

/-- One point of `normalise_data` (source lines 117-136): `normalise` on
the x coordinate, then on the y coordinate. -/
def normalise_point (data_region draw_region : Region) (pt : ℚ × ℚ) :
    Except Err (ℚ × ℚ) := do
  let nx ← normalise pt.1 data_region.min_x data_region.max_x
      draw_region.min_x draw_region.max_x
  let ny ← normalise pt.2 data_region.min_y data_region.max_y
      draw_region.min_y draw_region.max_y
  pure (nx, ny)

/-- `normalise_data` (source lines 112-138): maps every point of every
series through `normalise`, keeping keys and order. -/
def normalise_data (data : SensorData) (data_region draw_region : Region) :
    Except Err SensorData :=
  mapE (fun kv =>
      Except.map (fun pts => (kv.1, pts))
        (mapE (normalise_point data_region draw_region) kv.2))
    data

/-- An `xml.etree.ElementTree.Element`: tag, attributes in insertion
order, optional text, children in insertion order. -/
inductive Elem where
  | mk (tag : String) (attrs : List (String × String)) (text : Option String)
      (children : List Elem)

/-- Tag accessor. -/
def Elem.tagOf : Elem → String
  | .mk t _ _ _ => t

/-- Attribute-list accessor. -/
def Elem.attrsOf : Elem → List (String × String)
  | .mk _ a _ _ => a

/-- Text accessor. -/
def Elem.textOf : Elem → Option String
  | .mk _ _ tx _ => tx

/-- Children accessor. -/
def Elem.childrenOf : Elem → List Elem
  | .mk _ _ _ ch => ch

/-- XML text escaping as done by `xml.etree.ElementTree.tostring`. -/
def xmlEscape (s : String) : String :=
  String.replace (String.replace (String.replace s ("&") ("&amp;")) ("<") ("&lt;"))
    (">") ("&gt;")

/-- XML attribute-value escaping (additionally escapes double quotes). -/
def xmlEscapeAttr (s : String) : String :=
  String.replace (xmlEscape s) ("\"") ("&quot;")

mutual

/-- `xml.etree.ElementTree.tostring`: serializes an element, using the
self-closing form for an element with no text and no children. -/
def Elem.serialize : Elem → String
  | .mk tag attrs text children =>
    let attrStr := String.join (attrs.map fun kv =>
      (" ") ++ kv.1 ++ ("=\"") ++ xmlEscapeAttr kv.2 ++ ("\""))
    match text, children with
    | none, [] => ("<") ++ tag ++ attrStr ++ (" />")
    | _, _ =>
      ("<") ++ tag ++ attrStr ++ (">") ++
        (match text with | some t => xmlEscape t | none => ("")) ++
        serializeList children ++ ("</") ++ tag ++ (">")

/-- Serialization of a child list, in order. -/
def serializeList : List Elem → String
  | [] => ("")
  | e :: es => Elem.serialize e ++ serializeList es

end

/-- Python `str` of a number appearing in an attribute or an f-string.
Integral values print as plain integers; a non-integral rational prints as
`num/den`, standing in for Python's decimal float repr.  No theorem below
inspects the digits this function produces: documents are only ever
compared against documents produced by the same function. -/
def pyStr (q : ℚ) : String :=
  if q.den = 1 then toString q.num else toString q.num ++ ("/") ++ toString q.den

/-- Round to the nearest integer, ties to even — the rounding of Python's
`format(x, "0.2f")` (Python rounds the binary double; the exact-rational
model rounds the exact value, which differs only at ties no theorem
depends on). -/
def roundHalfEven (q : ℚ) : ℤ :=
  let f := ⌊q⌋
  let d := q - (f : ℚ)
  if d < 1/2 then f
  else if 1/2 < d then f + 1
  else if f % 2 = 0 then f else f + 1

/-- Python `f"{x:0.2f}"`: the number rounded to two decimal places. -/
def fmt2 (q : ℚ) : String :=
  let n := roundHalfEven (q * 100)
  let a := n.natAbs
  let ip := a / 100
  let fp := a % 100
  (if n < 0 then ("-") else ("")) ++ toString ip ++ (".") ++
    (if fp < 10 then ("0") ++ toString fp else toString fp)

/-- The data computed by `generate_svg` before any SVG element is built:
the mapped highlight ordinate (line 179) and the normalised, filtered
series (lines 186-189). -/
structure CoreData where
  y_highlight : ℚ
  dataF : SensorData

/-- Source lines 162-164: a requested filter channel absent from the data
is reported (`print`) and the filter is dropped.  Returns the resolved
filter and the emitted warnings. -/
def resolve_filter (data : SensorData) (only_source : Option String) :
    Option String × List String :=
  match only_source with
  | some s =>
    if (data.lookup s).isNone then
      (none, [("Ignoring request to filter non-existent field: ") ++ s])
    else (some s, [])
  | none => (none, [])

/-- Source lines 166-167: `if only_source and normalise_before_filter is
False: data = {only_source: data[only_source]}`.  Python truthiness: the
branch is skipped when `only_source` is `None` or the empty string.  The
`data[only_source]` subscript cannot fail here because lines 162-164
guarantee membership; the unreachable missing-key branch keeps `data`. -/
def apply_filter_early (os : Option String) (nbf : Bool) (data : SensorData) :
    SensorData :=
  match os with
  | some s =>
    if s ≠ "" ∧ nbf = false then
      match data.lookup s with
      | some v => [(s, v)]
      | none => data
    else data
  | none => data

/-- Source lines 188-189: `if only_source and normalise_before_filter is
True: data = {only_source: data[only_source]}`, applied to the normalised
data.  Same truthiness and unreachable-branch remarks as for
`apply_filter_early`. -/
def apply_filter_late (os : Option String) (nbf : Bool) (data : SensorData) :
    SensorData :=
  match os with
  | some s =>
    if s ≠ "" ∧ nbf = true then
      match data.lookup s with
      | some v => [(s, v)]
      | none => data
    else data
  | none => data

/-- The computation of `generate_svg` up to line 189, after the filter has
been resolved: early filtering, extent, highlight ordinate, normalisation,
late filtering.  Any raised exception aborts the call. -/
def render_core (logarithmic : Bool) (logfn : ℚ → ℚ) (data : SensorData)
    (width height padding highlight_power : ℚ) (os : Option String)
    (nbf : Bool) : Except Err CoreData :=
  let data1 := apply_filter_early os nbf data
  do
    let data_region ← get_data_region data1
    let draw_region := Region.mk padding padding (width - padding) (height - padding)
    let sh ← scale_y logarithmic logfn highlight_power
    let y_highlight ← normalise sh data_region.min_y data_region.max_y
        draw_region.min_y draw_region.max_y
    let dataN ← normalise_data data1 data_region draw_region
    pure (CoreData.mk y_highlight (apply_filter_late os nbf dataN))

/-- Source lines 191-285: the SVG document built from the core data —
root, group (with the rotation transform and swapped reported canvas size
when `rotate` is set), background rectangle, highlight band (the occupied
side selected by `invert_highlight`), title, both axes and captions, and
one polyline per remaining series. -/
def buildDoc (logarithmic : Bool) (width height padding highlight_power : ℚ)
    (only_source : Option String) (rotate invert invert_highlight : Bool)
    (core : CoreData) : Elem :=
  let foreground := if invert then "white" else "black"
  let background := if invert then "black" else "white"
  let draw_region := Region.mk padding padding (width - padding) (height - padding)
  let y_highlight := core.y_highlight
  let svg_attrs0 := [(("width"), pyStr width), (("height"), pyStr height),
    (("xmlns"), ("http://www.w3.org/2000/svg"))]
  let svg_attrs := if rotate then
      dictInsert (dictInsert svg_attrs0 ("width") (pyStr height)) ("height") (pyStr width)
    else svg_attrs0
  let g_attrs : List (String × String) := if rotate then
      [(("transform"), ("translate(0, ") ++ pyStr width ++ (") rotate(-90)"))]
    else []
  let bg_rect := Elem.mk ("rect")
    [(("width"), pyStr width), (("height"), pyStr height), (("fill"), background)]
    none []
  let hl_rect := if invert_highlight then
      Elem.mk ("rect")
        [(("x"), pyStr draw_region.min_x), (("y"), pyStr (height - y_highlight)),
         (("width"), pyStr (draw_region.max_x - draw_region.min_x)),
         (("height"), pyStr (y_highlight - draw_region.min_y)), (("fill"), ("grey"))]
        none []
    else
      Elem.mk ("rect")
        [(("x"), pyStr draw_region.min_x), (("y"), pyStr draw_region.min_y),
         (("width"), pyStr (draw_region.max_x - draw_region.min_x)),
         (("height"), pyStr (draw_region.max_y - y_highlight)), (("fill"), ("grey"))]
        none []
  let title_text := match only_source with
    | none => ("Power consumption")
    | some s => ("Power consumption (") ++ s ++ (")")
  let title := Elem.mk ("text")
    [(("x"), ("0")), (("y"), ("0")), (("fill"), foreground),
     (("transform"), ("translate(") ++ pyStr (width / 2 - 200) ++ (", ") ++
       pyStr (padding / 2 + 10) ++ (") scale(2)"))]
    (some title_text) []
  let x_axis := Elem.mk ("line")
    [(("x1"), pyStr padding), (("y1"), pyStr (height - padding)),
     (("x2"), pyStr (width - padding)), (("y2"), pyStr (height - padding)),
     (("stroke"), foreground)]
    none []
  let x_label := Elem.mk ("text")
    [(("x"), ("0")), (("y"), ("0")), (("fill"), foreground),
     (("transform"), ("translate(") ++ pyStr (width / 2 - 120) ++ (", ") ++
       pyStr (height - padding / 2 + 10) ++ (") scale(2)"))]
    (some ("Time (Previous 24 hours)")) []
  let y_axis := Elem.mk ("line")
    [(("x1"), pyStr padding), (("y1"), pyStr padding),
     (("x2"), pyStr padding), (("y2"), pyStr (height - padding)),
     (("stroke"), foreground)]
    none []
  let y_label_text := if logarithmic then
      ("Power (Logarithmic. Higher region ") ++ pyStr highlight_power ++ ("W)")
    else ("Power (Higher region ") ++ pyStr highlight_power ++ ("W)")
  let y_label := Elem.mk ("text")
    [(("x"), ("0")), (("y"), ("0")), (("font_size"), ("12")), (("fill"), foreground),
     (("transform"), ("translate(") ++ pyStr (padding / 2 + 10) ++ (", ") ++
       pyStr (height / 2 + 100) ++ (") scale(2) rotate(-90)"))]
    (some y_label_text) []
  let polys := core.dataF.map fun kv => Elem.mk ("polyline")
    [(("points"), String.intercalate (" ")
        (kv.2.map fun pt => fmt2 pt.1 ++ (",") ++ fmt2 (height - pt.2))),
     (("stroke"), foreground), (("fill"), ("none")), (("stroke_width"), ("2"))]
    none []
  Elem.mk ("svg") svg_attrs none
    [Elem.mk ("g") g_attrs none
      ([bg_rect, hl_rect, title, x_axis, x_label, y_axis, y_label] ++ polys)]

/-- `generate_svg` (source lines 142-285).  The two `random.choice` calls
are consulted exactly when the corresponding flag is `None`.  Returns the
warnings printed at line 163 and the document (or the raised exception). -/
def generate_svg (logarithmic : Bool) (logfn : ℚ → ℚ) (data : SensorData)
    (width height padding : ℚ) (invert : Option Bool) (highlight_power : ℚ)
    (invert_highlight : Option Bool) (only_source : Option String)
    (normalise_before_filter rotate : Bool)
    (rand_invert rand_invert_highlight : Bool) : List String × Except Err Elem :=
  let inv := invert.getD rand_invert
  let invH := invert_highlight.getD rand_invert_highlight
  let rf := resolve_filter data only_source
  (rf.2,
   Except.map
     (buildDoc logarithmic width height padding highlight_power rf.1 rotate inv invH)
     (render_core logarithmic logfn data width height padding highlight_power rf.1
        normalise_before_filter))

/-- The conversion-then-render sequence of `generate_files` (source lines
288-301): `convert_sensor_data` runs first, and any exception it raises
propagates before `generate_svg` builds anything. -/
def render_pipeline (logarithmic : Bool) (logfn : ℚ → ℚ) (raw : RawData)
    (width height padding : ℚ) (invert : Option Bool) (highlight_power : ℚ)
    (invert_highlight : Option Bool) (only_source : Option String)
    (normalise_before_filter rotate rand_invert rand_invert_highlight : Bool) :
    Except Err Elem :=
  match convert_sensor_data logarithmic logfn raw with
  | .error e => .error e
  | .ok data =>
    (generate_svg logarithmic logfn data width height padding invert highlight_power
       invert_highlight only_source normalise_before_filter rotate
       rand_invert rand_invert_highlight).2

/-- The children of the single group element of a rendered document. -/
def docGroupChildren (e : Elem) : List Elem :=
  match e with
  | .mk _ _ _ [g] => g.childrenOf
  | _ => []

/-- Number of polyline elements of a rendered document. -/
def countPoly (e : Elem) : ℕ :=
  ((docGroupChildren e).filter fun c => c.tagOf = "polyline").length

/-- Blanks the values of all `fill` and `stroke` attributes. -/
def stripAttrs (a : List (String × String)) : List (String × String) :=
  a.map fun kv => if kv.1 = "fill" ∨ kv.1 = "stroke" then (kv.1, ("")) else kv

/-- Blanks every color (`fill`/`stroke` value) of a rendered document,
keeping everything else — two documents equal after `stripColors` differ
at most in those color values. -/
def stripColors (e : Elem) : Elem :=
  match e with
  | .mk t a tx ch =>
    .mk t (stripAttrs a) tx (ch.map fun c =>
      match c with
      | .mk t2 a2 tx2 ch2 =>
        .mk t2 (stripAttrs a2) tx2 (ch2.map fun d =>
          match d with
          | .mk t3 a3 tx3 ch3 => .mk t3 (stripAttrs a3) tx3 ch3))

/-- Replaces the highlight rectangle (the group's second child) by a
placeholder — two documents equal after `stripHighlight` differ at most in
that rectangle. -/
def stripHighlight (e : Elem) : Elem :=
  match e with
  | .mk t a tx [.mk gt ga gtx gch] =>
    .mk t a tx [.mk gt ga gtx (gch.set 1 (Elem.mk ("") [] none []))]
  | _ => e

/-- The highlight rectangle of a rendered document. -/
def highlightRect (e : Elem) : Elem :=
  (docGroupChildren e).getD 1 (Elem.mk ("") [] none [])

/-- The position-independent attributes of the highlight rectangle:
its `x`, `width` and `fill`. -/
def hlStable (e : Elem) : Option String × Option String × Option String :=
  ((highlightRect e).attrsOf.lookup ("x"),
   (highlightRect e).attrsOf.lookup ("width"),
   (highlightRect e).attrsOf.lookup ("fill"))

/-- Replaces an element's text. -/
def setText (t : String) (e : Elem) : Elem :=
  match e with
  | .mk tg a _ ch => .mk tg a (some t) ch

/-- Restriction of an unfiltered rendered document to one channel: keep
the seven fixed primitives, retitle, and keep only the polyline at
position `idx` of the polyline block. -/
def docRestrict (idx : ℕ) (t : String) (e : Elem) : Elem :=
  match e with
  | .mk st sa stx [.mk gt ga gtx gch] =>
    .mk st sa stx [.mk gt ga gtx
      ((gch.take 7).set 2 (setText t (gch.getD 2 (Elem.mk ("") [] none [])))
        ++ [gch.getD (idx + 7) (Elem.mk ("") [] none [])])]
  | _ => e

/-- Position of the first entry with key `s`. -/
def keyIdx (data : SensorData) (s : String) : ℕ :=
  data.findIdx fun kv => kv.1 = s

/-- A concrete two-channel snapshot used by witnesses. -/
def sampleData : SensorData :=
  [(("A"), [((0:ℚ), (0:ℚ)), (1, 2)]), (("B"), [((0:ℚ), (1:ℚ)), (1, 3)])]

/-- A concrete snapshot whose first channel has the empty string as its
name, used by counterexamples about Python truthiness of the filter. -/
def emptyNameData : SensorData :=
  [((""), [((0:ℚ), (0:ℚ)), (1, 1)]), (("A"), [((0:ℚ), (2:ℚ)), (1, 3)])]

/-- The pure per-point mapping applied by `normalise_data` when no
division by zero occurs. -/
def normPt (r d : Region) (pt : ℚ × ℚ) : ℚ × ℚ :=
  (normP pt.1 r.min_x r.max_x d.min_x d.max_x,
   normP pt.2 r.min_y r.max_y d.min_y d.max_y)

/-- A raised validation `Exception` of `convert_sensor_data` — the
specification's `ValidationError`. -/
def isValidationError {α : Type} (e : Except Err α) : Prop :=
  e = .error .timeNotFirst ∨ e = .error .lengthMismatch

instance {α : Type} [DecidableEq α] (e : Except Err α) :
    Decidable (isValidationError e) := by
  unfold isValidationError; infer_instance

section ExceptLemmas

variable {α β γ : Type}

@[simp] theorem exc_bind_ok (a : α) (f : α → Except Err β) :
    (Except.ok a >>= f) = f a := rfl

@[simp] theorem exc_bind_error (e : Err) (f : α → Except Err β) :
    ((Except.error e : Except Err α) >>= f) = .error e := rfl

@[simp] theorem exc_map_ok (f : α → β) (a : α) :
    Except.map f (Except.ok a : Except Err α) = .ok (f a) := rfl

@[simp] theorem exc_map_error (f : α → β) (e : Err) :
    Except.map f (Except.error e : Except Err α) = .error e := rfl

@[simp] theorem exc_pure_eq (a : α) : (pure a : Except Err α) = .ok a := rfl

theorem exc_map_map (f : β → γ) (g : α → β) (e : Except Err α) :
    Except.map f (Except.map g e) = Except.map (fun a => f (g a)) e := by
  cases e <;> rfl

theorem exc_map_congr (f g : α → β) (e : Except Err α) (h : ∀ a, f a = g a) :
    Except.map f e = Except.map g e := by
  cases e <;> simp [Except.map, h]

theorem exc_map_ok_inv {f : α → β} {e : Except Err α} {b : β}
    (h : Except.map f e = .ok b) : ∃ a, e = .ok a ∧ b = f a := by
  cases e with
  | error _ => simp [Except.map] at h
  | ok a => exact ⟨a, rfl, by simpa [Except.map] using h.symm⟩

end ExceptLemmas

section MapELemmas

variable {α β : Type}

theorem mapE_ok_of_forall {f : α → Except Err β} {g : α → β} :
    ∀ {l : List α}, (∀ a ∈ l, f a = .ok (g a)) → mapE f l = .ok (l.map g) := by
  intro l
  induction l with
  | nil => intro _; rfl
  | cons a t ih =>
    intro h
    simp only [mapE, h a (by simp), exc_bind_ok, ih fun x hx => h x (by simp [hx]),
      List.map_cons, exc_pure_eq]

theorem mapE_forall2 {f : α → Except Err β} :
    ∀ {l : List α} {m : List β}, mapE f l = .ok m →
      List.Forall₂ (fun a b => f a = .ok b) l m := by
  intro l
  induction l with
  | nil =>
    intro m h
    obtain rfl : ([] : List β) = m := by simpa [mapE] using h
    exact .nil
  | cons a t ih =>
    intro m h
    simp only [mapE] at h
    cases hfa : f a with
    | error e => rw [hfa] at h; simp at h
    | ok b =>
      rw [hfa] at h
      simp only [exc_bind_ok] at h
      cases hmt : mapE f t with
      | error e => rw [hmt] at h; simp at h
      | ok bs =>
        rw [hmt] at h
        simp only [exc_bind_ok, exc_pure_eq] at h
        obtain rfl : b :: bs = m := by simpa using h
        exact .cons hfa (ih hmt)

theorem mapE_error_of_mem {f : α → Except Err β} {e : Err} :
    ∀ {l : List α}, (∀ a ∈ l, f a = .error e ∨ ∃ b, f a = .ok b) →
      (∃ a ∈ l, f a = .error e) → mapE f l = .error e := by
  intro l
  induction l with
  | nil => rintro _ ⟨a, ha, _⟩; simp at ha
  | cons a t ih =>
    rintro hdi ⟨x, hx, hxe⟩
    simp only [mapE]
    rcases hdi a (by simp) with ha | ⟨b, hb⟩
    · rw [ha]; rfl
    · rw [hb, exc_bind_ok]
      have hxt : x ∈ t := by
        rcases List.mem_cons.mp hx with rfl | hxt
        · rw [hb] at hxe; cases hxe
        · exact hxt
      rw [ih (fun y hy => hdi y (by simp [hy])) ⟨x, hxt, hxe⟩]
      rfl

theorem mapE_dichotomy {f : α → Except Err β} {e : Err}
    (l : List α) (hdi : ∀ a ∈ l, f a = .error e ∨ ∃ b, f a = .ok b) :
    mapE f l = .error e ∨ ∃ m, mapE f l = .ok m := by
  induction l with
  | nil => exact .inr ⟨[], rfl⟩
  | cons a t ih =>
    rcases hdi a (by simp) with ha | ⟨b, hb⟩
    · left; simp only [mapE, ha]; rfl
    · rcases ih (fun y hy => hdi y (by simp [hy])) with ht | ⟨m, hm⟩
      · left; simp only [mapE, hb, exc_bind_ok, ht]; rfl
      · right; exact ⟨b :: m, by simp only [mapE, hb, exc_bind_ok, hm, exc_pure_eq]⟩

end MapELemmas

section FoldLemmas

theorem foldl_qmin_le_init : ∀ (l : List ℚ) (a : ℚ), l.foldl qmin a ≤ a := by
  intro l
  induction l with
  | nil => intro a; simp
  | cons b t ih =>
    intro a
    refine le_trans (ih (qmin a b)) ?_
    unfold qmin; split
    · exact le_refl a
    · next h => exact le_of_lt (not_le.mp h)

theorem foldl_qmin_le_mem : ∀ (l : List ℚ) (a b : ℚ), b ∈ l → l.foldl qmin a ≤ b := by
  intro l
  induction l with
  | nil => intro a b hb; simp at hb
  | cons c t ih =>
    intro a b hb
    rcases List.mem_cons.mp hb with rfl | hbt
    · refine le_trans (foldl_qmin_le_init t (qmin a b)) ?_
      unfold qmin; split
      · assumption
      · exact le_refl b
    · exact ih (qmin a c) b hbt

theorem foldl_qmin_mem : ∀ (l : List ℚ) (a : ℚ),
    l.foldl qmin a = a ∨ l.foldl qmin a ∈ l := by
  intro l
  induction l with
  | nil => intro a; exact .inl rfl
  | cons b t ih =>
    intro a
    rcases ih (qmin a b) with h | h
    · unfold qmin at h
      by_cases hab : a ≤ b
      · simp only [List.foldl_cons]
        unfold qmin
        rw [if_pos hab] at h ⊢
        exact .inl h
      · simp only [List.foldl_cons]
        unfold qmin
        rw [if_neg hab] at h ⊢
        exact .inr (by simp [h])
    · exact .inr (by simp [h])

theorem foldl_qmax_ge_init : ∀ (l : List ℚ) (a : ℚ), a ≤ l.foldl qmax a := by
  intro l
  induction l with
  | nil => intro a; simp
  | cons b t ih =>
    intro a
    refine le_trans ?_ (ih (qmax a b))
    unfold qmax; split
    · exact le_refl a
    · next h => exact le_of_lt (not_le.mp h)

theorem foldl_qmax_ge_mem : ∀ (l : List ℚ) (a b : ℚ), b ∈ l → b ≤ l.foldl qmax a := by
  intro l
  induction l with
  | nil => intro a b hb; simp at hb
  | cons c t ih =>
    intro a b hb
    rcases List.mem_cons.mp hb with rfl | hbt
    · refine le_trans ?_ (foldl_qmax_ge_init t (qmax a b))
      unfold qmax; split
      · assumption
      · exact le_refl b
    · exact ih (qmax a c) b hbt

theorem foldl_qmax_mem : ∀ (l : List ℚ) (a : ℚ),
    l.foldl qmax a = a ∨ l.foldl qmax a ∈ l := by
  intro l
  induction l with
  | nil => intro a; exact .inl rfl
  | cons b t ih =>
    intro a
    rcases ih (qmax a b) with h | h
    · unfold qmax at h
      by_cases hab : b ≤ a
      · simp only [List.foldl_cons]
        unfold qmax
        rw [if_pos hab] at h ⊢
        exact .inl h
      · simp only [List.foldl_cons]
        unfold qmax
        rw [if_neg hab] at h ⊢
        exact .inr (by simp [h])
    · exact .inr (by simp [h])

end FoldLemmas

section LookupLemmas

variable {α β : Type}

theorem lookup_map_val (g : α → β) (s : String) (v : α) :
    ∀ {l : List (String × α)}, l.lookup s = some v →
      (l.map fun kv => (kv.1, g kv.2)).lookup s = some (g v) := by
  intro l
  induction l with
  | nil => intro h; simp [List.lookup] at h
  | cons kv t ih =>
    intro h
    simp only [List.lookup, List.map_cons] at h ⊢
    cases hk : s == kv.1 with
    | true => rw [hk] at h; simp_all
    | false => rw [hk] at h; exact ih h

theorem keyIdx_map_val (g : List (ℚ × ℚ) → List (ℚ × ℚ)) (s : String) :
    ∀ (l : SensorData), keyIdx (l.map fun kv => (kv.1, g kv.2)) s = keyIdx l s := by
  intro l
  induction l with
  | nil => rfl
  | cons kv t ih =>
    simp only [keyIdx, List.map_cons, List.findIdx_cons] at ih ⊢
    cases h : decide (kv.1 = s) <;> simp [h, ih]

theorem getD_map_keyIdx (F : String × List (ℚ × ℚ) → β) (d : β) (s : String)
    (v : List (ℚ × ℚ)) : ∀ {l : SensorData}, l.lookup s = some v →
      (l.map F).getD (keyIdx l s) d = F (s, v) := by
  intro l
  induction l with
  | nil => intro h; simp [List.lookup] at h
  | cons kv t ih =>
    intro h
    simp only [List.lookup] at h
    cases hk : s == kv.1 with
    | true =>
      rw [hk] at h
      have hks : kv.1 = s := (beq_iff_eq.mp hk).symm
      obtain rfl : kv.2 = v := by simpa using h
      simp [keyIdx, List.findIdx_cons, hks, List.getD]
      rw [← hks]
    | false =>
      rw [hk] at h
      have hks : ¬ kv.1 = s := fun hc => by simp [hc] at hk
      simp only [keyIdx, List.findIdx_cons, decide_eq_false hks, cond_false,
        List.map_cons]
      simpa [List.getD] using ih h

theorem lookup_some_of_forall2_keys {l : List (String × α)} {m : List (String × β)}
    (hf : List.Forall₂ (fun a b => b.1 = a.1) l m) :
    ∀ {s : String} {v : α}, l.lookup s = some v → ∃ w, m.lookup s = some w := by
  induction hf with
  | nil => intro s v h; simp [List.lookup] at h
  | @cons a b l1 l2 hab htail ih =>
    intro s v h
    simp only [List.lookup] at h ⊢
    rw [hab]
    cases hk : s == a.1 with
    | true =>
      exact ⟨b.2, rfl⟩
    | false =>
      rw [hk] at h
      exact ih h

theorem dictInsert_fresh {kv : String × α} :
    ∀ {acc : List (String × α)}, kv.1 ∉ acc.map Prod.fst →
      dictInsert acc kv.1 kv.2 = acc ++ [kv] := by
  intro acc
  induction acc with
  | nil => intro _; rfl
  | cons a ta iha =>
    intro hk
    have hne : a.1 ≠ kv.1 := by
      intro hc
      exact hk (by simp [hc])
    simp only [dictInsert, if_neg hne, List.cons_append]
    rw [iha fun hc => hk (by simp [hc])]

theorem foldl_dictInsert_fresh :
    ∀ (l acc : List (String × α)), (l.map Prod.fst).Nodup →
      (∀ k ∈ acc.map Prod.fst, k ∉ l.map Prod.fst) →
      l.foldl (fun d kv => dictInsert d kv.1 kv.2) acc = acc ++ l := by
  intro l
  induction l with
  | nil => intro acc _ _; simp
  | cons kv t ih =>
    intro acc hnd hacc
    simp only [List.map_cons, List.nodup_cons] at hnd
    have hins : dictInsert acc kv.1 kv.2 = acc ++ [kv] :=
      dictInsert_fresh fun hc => hacc kv.1 hc (by simp)
    simp only [List.foldl_cons, hins]
    rw [ih (acc ++ [kv]) hnd.2]
    · simp
    · intro k hk
      simp only [List.map_append, List.mem_append, List.map_cons, List.map_nil,
        List.mem_singleton] at hk
      rcases hk with hk | hk
      · intro hmem
        exact hacc k hk (by simp [hmem])
      · subst hk
        exact hnd.1

theorem dictFromPairs_nodup {l : List (String × α)}
    (h : (l.map Prod.fst).Nodup) : dictFromPairs l = l := by
  simpa [dictFromPairs] using foldl_dictInsert_fresh l [] h (by simp)

end LookupLemmas

section PipelineLemmas

theorem normalise_ok {min_val max_val : ℚ} (value new_min new_max : ℚ)
    (h : max_val - min_val ≠ 0) :
    normalise value min_val max_val new_min new_max =
      .ok (normP value min_val max_val new_min new_max) := by
  simp [normalise, h]

theorem normalise_point_ok {r d : Region} (hx : r.max_x - r.min_x ≠ 0)
    (hy : r.max_y - r.min_y ≠ 0) (pt : ℚ × ℚ) :
    normalise_point r d pt = .ok (normPt r d pt) := by
  simp [normalise_point, normalise_ok _ _ _ hx, normalise_ok _ _ _ hy, normPt]

theorem normalise_data_ok {r : Region} (d : Region) (hx : r.max_x - r.min_x ≠ 0)
    (hy : r.max_y - r.min_y ≠ 0) (data : SensorData) :
    normalise_data data r d =
      .ok (data.map fun kv => (kv.1, kv.2.map (normPt r d))) := by
  apply mapE_ok_of_forall
  intro kv _
  rw [mapE_ok_of_forall fun pt _ => normalise_point_ok hx hy pt]
  rfl

theorem normalise_data_keys {data m : SensorData} {r d : Region}
    (h : normalise_data data r d = .ok m) :
    List.Forall₂ (fun a b => (b : String × List (ℚ × ℚ)).1 = a.1) data m := by
  have h2 := mapE_forall2 h
  refine h2.imp fun {a b} hab => ?_
  obtain ⟨pts, _, hb⟩ := exc_map_ok_inv hab
  rw [hb]

theorem render_core_ok {data : SensorData} {w h p hp : ℚ} {os : Option String}
    {nbf : Bool} {f : ℚ → ℚ} {r : Region}
    (hr : get_data_region (apply_filter_early os nbf data) = .ok r)
    (hx : r.max_x - r.min_x ≠ 0) (hy : r.max_y - r.min_y ≠ 0) :
    render_core false f data w h p hp os nbf =
      .ok (CoreData.mk (normP hp r.min_y r.max_y p (h - p))
        (apply_filter_late os nbf
          ((apply_filter_early os nbf data).map fun kv =>
            (kv.1, kv.2.map (normPt r (Region.mk p p (w - p) (h - p))))))) := by
  simp only [render_core, hr, exc_bind_ok, scale_y, Bool.false_eq_true, if_false,
    normalise_ok _ _ _ hy, normalise_data_ok _ hx hy, exc_pure_eq]

theorem render_core_inv {log : Bool} {f : ℚ → ℚ} {data : SensorData}
    {w h p hp : ℚ} {os : Option String} {nbf : Bool} {core : CoreData}
    (hc : render_core log f data w h p hp os nbf = .ok core) :
    ∃ r dataN, get_data_region (apply_filter_early os nbf data) = .ok r ∧
      normalise_data (apply_filter_early os nbf data) r
        (Region.mk p p (w - p) (h - p)) = .ok dataN ∧
      core.dataF = apply_filter_late os nbf dataN := by
  simp only [render_core] at hc
  cases hr : get_data_region (apply_filter_early os nbf data) with
  | error e => rw [hr] at hc; simp at hc
  | ok r =>
    rw [hr] at hc
    simp only [exc_bind_ok] at hc
    cases hs : scale_y log f hp with
    | error e => rw [hs] at hc; simp at hc
    | ok sh =>
      rw [hs] at hc
      simp only [exc_bind_ok] at hc
      cases hn : normalise sh r.min_y r.max_y (Region.mk p p (w - p) (h - p)).min_y
          (Region.mk p p (w - p) (h - p)).max_y with
      | error e => rw [hn] at hc; simp at hc
      | ok yh =>
        rw [hn] at hc
        simp only [exc_bind_ok] at hc
        cases hm : normalise_data (apply_filter_early os nbf data) r
            (Region.mk p p (w - p) (h - p)) with
        | error e => rw [hm] at hc; simp at hc
        | ok dataN =>
          rw [hm] at hc
          simp only [exc_bind_ok, exc_pure_eq, Except.ok.injEq] at hc
          exact ⟨r, dataN, rfl, hm, by rw [← hc]⟩

theorem filter_tag_map (l : SensorData) (F : String × List (ℚ × ℚ) → Elem)
    (hF : ∀ kv, (F kv).tagOf = "polyline") :
    ((l.map F).filter fun c => c.tagOf = "polyline") = l.map F := by
  induction l with
  | nil => rfl
  | cons kv t ih => simp [hF, ih]

theorem countPoly_buildDoc (log : Bool) (w h p hp : ℚ) (os : Option String)
    (rot inv invH : Bool) (core : CoreData) :
    countPoly (buildDoc log w h p hp os rot inv invH core) = core.dataF.length := by
  cases invH with
  | false =>
    simp only [countPoly, buildDoc, docGroupChildren, Elem.childrenOf,
      Bool.false_eq_true, if_false]
    rw [List.filter_append, filter_tag_map core.dataF]
    · simp +decide [List.filter, Elem.tagOf]
    · intro kv; rfl
  | true =>
    simp only [countPoly, buildDoc, docGroupChildren, Elem.childrenOf, if_true]
    rw [List.filter_append, filter_tag_map core.dataF]
    · simp +decide [List.filter, Elem.tagOf]
    · intro kv; rfl

end PipelineLemmas

section DocLemmas

theorem map_ext_fun {α β : Type} (l : List α) (f g : α → β) (h : ∀ a, f a = g a) :
    l.map f = l.map g := by
  induction l with
  | nil => rfl
  | cons a t ih => simp [h, ih]

theorem stripHighlight_buildDoc (log : Bool) (w h p hp : ℚ) (os : Option String)
    (rot inv : Bool) (core : CoreData) (i1 i2 : Bool) :
    stripHighlight (buildDoc log w h p hp os rot inv i1 core) =
      stripHighlight (buildDoc log w h p hp os rot inv i2 core) := by
  cases i1 <;> cases i2 <;> rfl

theorem hlStable_buildDoc (log : Bool) (w h p hp : ℚ) (os : Option String)
    (rot inv : Bool) (core : CoreData) (i1 i2 : Bool) :
    hlStable (buildDoc log w h p hp os rot inv i1 core) =
      hlStable (buildDoc log w h p hp os rot inv i2 core) := by
  cases i1 <;> cases i2 <;> rfl

theorem stripColors_buildDoc (log : Bool) (w h p hp : ℚ) (os : Option String)
    (rot invH : Bool) (core : CoreData) (i1 i2 : Bool) :
    stripColors (buildDoc log w h p hp os rot i1 invH core) =
      stripColors (buildDoc log w h p hp os rot i2 invH core) := by
  cases i1 <;> cases i2 <;>
    simp +decide [buildDoc, stripColors, stripAttrs, List.map_append, List.map_map]

theorem getD_append7_map (e1 e2 e3 e4 e5 e6 e7 : Elem) (l : SensorData)
    (F : String × List (ℚ × ℚ) → Elem) (d : Elem) (s : String) (v : List (ℚ × ℚ))
    (h : l.lookup s = some v) :
    ([e1, e2, e3, e4, e5, e6, e7] ++ l.map F).getD (keyIdx l s + 7) d = F (s, v) := by
  show (l.map F).getD (keyIdx l s) d = F (s, v)
  exact getD_map_keyIdx F d s v h

theorem docRestrict_buildDoc {dataN : SensorData} {s : String} {w : List (ℚ × ℚ)}
    (hl : dataN.lookup s = some w) (log : Bool) (wd h p hp : ℚ)
    (rot inv ihl : Bool) (yh : ℚ) :
    docRestrict (keyIdx dataN s) (("Power consumption (") ++ s ++ (")"))
      (buildDoc log wd h p hp none rot inv ihl (CoreData.mk yh dataN)) =
      buildDoc log wd h p hp (some s) rot inv ihl (CoreData.mk yh [(s, w)]) := by
  simp only [buildDoc, docRestrict]
  rw [getD_append7_map _ _ _ _ _ _ _ dataN _ _ s w hl]
  rfl

end DocLemmas

section AffineLemmas

theorem normalise_at_min {mn mx : ℚ} (a b : ℚ) (h : mx - mn ≠ 0) :
    normalise mn mn mx a b = .ok a := by
  simp [normalise, h, normP]

theorem normalise_at_max {mn mx : ℚ} (a b : ℚ) (h : mx - mn ≠ 0) :
    normalise mx mn mx a b = .ok b := by
  have hdiv : (mx - mn) * (b - a) / (mx - mn) = b - a := by
    rw [mul_comm, mul_div_assoc, div_self h, mul_one]
  simp only [normalise, if_neg h, normP, hdiv]
  rw [add_sub_cancel]

end AffineLemmas

section DegenerateLemmas

theorem allPoints_nil_of_forall {data : SensorData} (hc : ∀ kv ∈ data, kv.2 = []) :
    allPoints data = [] := by
  induction data with
  | nil => rfl
  | cons kv t ih =>
    simp only [allPoints, List.map_cons, List.flatten_cons]
    rw [hc kv (by simp)]
    simpa [allPoints] using ih fun x hx => hc x (by simp [hx])

theorem exists_entry_of_allPoints_ne {data : SensorData} (h : allPoints data ≠ []) :
    ∃ kv ∈ data, kv.2 ≠ [] := by
  by_contra hc
  push_neg at hc
  exact h (allPoints_nil_of_forall hc)

theorem allPoints_ne_of_region_ok {data : SensorData} {r : Region}
    (h : get_data_region data = .ok r) : allPoints data ≠ [] := by
  intro hap
  simp [get_data_region, hap] at h

theorem normalise_data_error_of_deg_x {r : Region} (d : Region)
    (hx : r.max_x - r.min_x = 0) {data : SensorData}
    (hne : ∃ kv ∈ data, kv.2 ≠ []) :
    normalise_data data r d = .error .zeroDivision := by
  have hpt : ∀ pt, normalise_point r d pt = .error .zeroDivision := by
    intro pt
    simp [normalise_point, normalise, hx]
  apply mapE_error_of_mem
  · intro kv _
    cases hpts : kv.2 with
    | nil => exact .inr ⟨(kv.1, []), by simp [hpts, mapE]⟩
    | cons pt pts => exact .inl (by simp [hpts, mapE, hpt pt])
  · obtain ⟨kv, hkv, hkv2⟩ := hne
    refine ⟨kv, hkv, ?_⟩
    cases hpts : kv.2 with
    | nil => exact absurd hpts hkv2
    | cons pt pts => simp [hpts, mapE, hpt pt]

theorem gen_degenerate_zero_div {f : ℚ → ℚ} {data : SensorData} {w h p : ℚ}
    {inv : Option Bool} {hp : ℚ} {ihl : Option Bool} {nbf rot r1 r2 : Bool}
    {r : Region} (hr : get_data_region data = .ok r)
    (hdeg : r.max_x - r.min_x = 0 ∨ r.max_y - r.min_y = 0) :
    (generate_svg false f data w h p inv hp ihl none nbf rot r1 r2).2 =
      .error .zeroDivision := by
  have hearly : apply_filter_early none nbf data = data := rfl
  simp only [generate_svg, resolve_filter, render_core, hearly, hr, exc_bind_ok,
    scale_y, Bool.false_eq_true, if_false]
  by_cases hy : r.max_y - r.min_y = 0
  · simp [normalise, hy]
  · have hx : r.max_x - r.min_x = 0 := by
      rcases hdeg with hx | hy2
      · exact hx
      · exact absurd hy2 hy
    rw [normalise_ok _ _ _ hy]
    simp only [exc_bind_ok]
    rw [normalise_data_error_of_deg_x _ hx
      (exists_entry_of_allPoints_ne (allPoints_ne_of_region_ok hr))]
    rfl

end DegenerateLemmas

section ScaleLemmas

theorem scale_y_true_nonpos {f : ℚ → ℚ} {v : ℚ} (h : v ≤ 0) :
    scale_y true f v = .error .domainError := by
  simp [scale_y, h]

theorem scale_y_true_pos {f : ℚ → ℚ} {v : ℚ} (h : ¬ v ≤ 0) :
    scale_y true f v = .ok (f v) := by
  simp [scale_y, h]

end ScaleLemmas

section FilterLemmas

theorem keyIdx_of_forall2_keys {l m : SensorData}
    (hf : List.Forall₂ (fun a b => (b : String × List (ℚ × ℚ)).1 = a.1) l m)
    (s : String) : keyIdx l s = keyIdx m s := by
  induction hf with
  | nil => rfl
  | @cons a b l1 l2 hab htail ih =>
    simp only [keyIdx, List.findIdx_cons] at ih ⊢
    rw [hab]
    cases hd : decide (a.1 = s) <;> simp [hd, ih]

theorem countPoly_present {f : ℚ → ℚ} {data : SensorData} {w h p hp : ℚ}
    {inv ihl : Option Bool} {nbf rot r1 r2 : Bool} {s : String}
    {v : List (ℚ × ℚ)} (hs : data.lookup s = some v) (hne : s ≠ "") :
    Except.map countPoly
        (generate_svg false f data w h p inv hp ihl (some s) nbf rot r1 r2).2 =
      Except.map (fun _ => (1 : ℕ))
        (generate_svg false f data w h p inv hp ihl (some s) nbf rot r1 r2).2 := by
  have hrf : resolve_filter data (some s) = (some s, []) := by
    simp [resolve_filter, hs]
  simp only [generate_svg, hrf]
  rw [exc_map_map, exc_map_map]
  cases hc : render_core false f data w h p hp (some s) nbf with
  | error e => rfl
  | ok core =>
    simp only [Except.map]
    rw [countPoly_buildDoc]
    obtain ⟨r, dataN, hr, hN, hdf⟩ := render_core_inv hc
    rw [hdf]
    cases nbf with
    | false =>
      have hearly : apply_filter_early (some s) false data = [(s, v)] := by
        simp [apply_filter_early, hne, hs]
      rw [hearly] at hN
      have hlen := (normalise_data_keys hN).length_eq
      have hlate : apply_filter_late (some s) false dataN = dataN := by
        simp [apply_filter_late]
      rw [hlate, ← hlen]
      rfl
    | true =>
      have hearly : apply_filter_early (some s) true data = data := by
        simp [apply_filter_early]
      rw [hearly] at hN
      obtain ⟨wN, hwN⟩ := lookup_some_of_forall2_keys (normalise_data_keys hN) hs
      have hlate : apply_filter_late (some s) true dataN = [(s, wN)] := by
        simp [apply_filter_late, hne, hwN]
      rw [hlate]
      rfl

end FilterLemmas

section Claims

/-- C1: for every valid snapshot (at least one series, each with at least
one sample), `get_data_region` returns a `Region` whose `min_x`/`max_x`/
`min_y`/`max_y` are exactly the minimum and maximum of the samples' x
respectively y coordinates: every sample lies inside the region and each
bound is attained by some sample. -/
theorem c1_extent_tight (data : SensorData) (hne : data ≠ [])
    (hs : ∀ kv ∈ data, kv.2 ≠ ([] : List (ℚ × ℚ))) :
    ∃ r, get_data_region data = .ok r ∧
      (∀ pt ∈ allPoints data, r.min_x ≤ pt.1 ∧ pt.1 ≤ r.max_x ∧
        r.min_y ≤ pt.2 ∧ pt.2 ≤ r.max_y) ∧
      (∃ pt ∈ allPoints data, pt.1 = r.min_x) ∧
      (∃ pt ∈ allPoints data, pt.1 = r.max_x) ∧
      (∃ pt ∈ allPoints data, pt.2 = r.min_y) ∧
      (∃ pt ∈ allPoints data, pt.2 = r.max_y) := by
  have hap : allPoints data ≠ [] := by
    match data, hne with
    | kv :: rest, _ =>
      have hkv := hs kv (by simp)
      simp only [allPoints, List.map_cons, List.flatten_cons]
      intro hcontra
      exact hkv (List.append_eq_nil.mp hcontra).1
  obtain ⟨p, ps, hps⟩ : ∃ p ps, allPoints data = p :: ps := by
    cases h : allPoints data with
    | nil => exact absurd h hap
    | cons p ps => exact ⟨p, ps, rfl⟩
  refine ⟨Region.mk ((ps.map Prod.fst).foldl qmin p.1) ((ps.map Prod.snd).foldl qmin p.2)
      ((ps.map Prod.fst).foldl qmax p.1) ((ps.map Prod.snd).foldl qmax p.2),
    by simp only [get_data_region, hps], ?_, ?_, ?_, ?_, ?_⟩
  · intro pt hpt
    rw [hps] at hpt
    rcases List.mem_cons.mp hpt with rfl | hmem
    · exact ⟨foldl_qmin_le_init _ _, foldl_qmax_ge_init _ _,
        foldl_qmin_le_init _ _, foldl_qmax_ge_init _ _⟩
    · exact ⟨foldl_qmin_le_mem _ _ _ (List.mem_map_of_mem Prod.fst hmem),
        foldl_qmax_ge_mem _ _ _ (List.mem_map_of_mem Prod.fst hmem),
        foldl_qmin_le_mem _ _ _ (List.mem_map_of_mem Prod.snd hmem),
        foldl_qmax_ge_mem _ _ _ (List.mem_map_of_mem Prod.snd hmem)⟩
  · rcases foldl_qmin_mem (ps.map Prod.fst) p.1 with he | hm
    · exact ⟨p, by rw [hps]; exact List.mem_cons_self p ps, he.symm⟩
    · obtain ⟨q, hq, hqe⟩ := List.mem_map.mp hm
      exact ⟨q, by rw [hps]; exact List.mem_cons_of_mem p hq, hqe⟩
  · rcases foldl_qmax_mem (ps.map Prod.fst) p.1 with he | hm
    · exact ⟨p, by rw [hps]; exact List.mem_cons_self p ps, he.symm⟩
    · obtain ⟨q, hq, hqe⟩ := List.mem_map.mp hm
      exact ⟨q, by rw [hps]; exact List.mem_cons_of_mem p hq, hqe⟩
  · rcases foldl_qmin_mem (ps.map Prod.snd) p.2 with he | hm
    · exact ⟨p, by rw [hps]; exact List.mem_cons_self p ps, he.symm⟩
    · obtain ⟨q, hq, hqe⟩ := List.mem_map.mp hm
      exact ⟨q, by rw [hps]; exact List.mem_cons_of_mem p hq, hqe⟩
  · rcases foldl_qmax_mem (ps.map Prod.snd) p.2 with he | hm
    · exact ⟨p, by rw [hps]; exact List.mem_cons_self p ps, he.symm⟩
    · obtain ⟨q, hq, hqe⟩ := List.mem_map.mp hm
      exact ⟨q, by rw [hps]; exact List.mem_cons_of_mem p hq, hqe⟩

/-- Witness for C1 at a concrete two-series snapshot. -/
theorem c1_extent_tight_witness :
    (([(("A"), [((0:ℚ), (1:ℚ)), (2, 3)]), (("B"), [((1:ℚ), (0:ℚ))])] : SensorData) ≠ [] ∧
      ∀ kv ∈ ([(("A"), [((0:ℚ), (1:ℚ)), (2, 3)]), (("B"), [((1:ℚ), (0:ℚ))])] : SensorData),
        kv.2 ≠ []) ∧
    (∃ r, get_data_region
        [(("A"), [((0:ℚ), (1:ℚ)), (2, 3)]), (("B"), [((1:ℚ), (0:ℚ))])] = .ok r ∧
      (∀ pt ∈ allPoints [(("A"), [((0:ℚ), (1:ℚ)), (2, 3)]), (("B"), [((1:ℚ), (0:ℚ))])],
        r.min_x ≤ pt.1 ∧ pt.1 ≤ r.max_x ∧ r.min_y ≤ pt.2 ∧ pt.2 ≤ r.max_y) ∧
      (∃ pt ∈ allPoints [(("A"), [((0:ℚ), (1:ℚ)), (2, 3)]), (("B"), [((1:ℚ), (0:ℚ))])],
        pt.1 = r.min_x) ∧
      (∃ pt ∈ allPoints [(("A"), [((0:ℚ), (1:ℚ)), (2, 3)]), (("B"), [((1:ℚ), (0:ℚ))])],
        pt.1 = r.max_x) ∧
      (∃ pt ∈ allPoints [(("A"), [((0:ℚ), (1:ℚ)), (2, 3)]), (("B"), [((1:ℚ), (0:ℚ))])],
        pt.2 = r.min_y) ∧
      (∃ pt ∈ allPoints [(("A"), [((0:ℚ), (1:ℚ)), (2, 3)]), (("B"), [((1:ℚ), (0:ℚ))])],
        pt.2 = r.max_y)) :=
  ⟨⟨by decide, by decide⟩, c1_extent_tight _ (by decide) (by decide)⟩

/-- C2: for every non-degenerate source interval the per-axis affine map
`normalise` sends the source minimum to the target minimum and the source
maximum to the target maximum; in particular, for every width, height and
padding with `width > 2*padding` and `height > 2*padding`, the data
extent's min corner maps to `(padding, padding)` and its max corner to
`(width - padding, height - padding)` under the drawing region used by
`generate_svg`. -/
theorem c2_affine_corners :
    (∀ min_val max_val new_min new_max : ℚ, min_val < max_val →
      normalise min_val min_val max_val new_min new_max = .ok new_min ∧
      normalise max_val min_val max_val new_min new_max = .ok new_max) ∧
    (∀ (r : Region) (width height padding : ℚ), r.min_x < r.max_x →
      r.min_y < r.max_y → 2 * padding < width → 2 * padding < height →
      normalise_point r (Region.mk padding padding (width - padding) (height - padding))
          (r.min_x, r.min_y) = .ok (padding, padding) ∧
      normalise_point r (Region.mk padding padding (width - padding) (height - padding))
          (r.max_x, r.max_y) = .ok (width - padding, height - padding)) := by
  have hmin := fun (mn mx a b : ℚ) (h : mn < mx) =>
    normalise_at_min a b (sub_ne_zero_of_ne (ne_of_gt h))
  have hmax := fun (mn mx a b : ℚ) (h : mn < mx) =>
    normalise_at_max a b (sub_ne_zero_of_ne (ne_of_gt h))
  constructor
  · intro mn mx a b h
    exact ⟨hmin mn mx a b h, hmax mn mx a b h⟩
  · intro r width height padding hx hy _ _
    constructor
    · simp only [normalise_point, hmin r.min_x r.max_x _ _ hx, exc_bind_ok,
        hmin r.min_y r.max_y _ _ hy, exc_pure_eq]
    · simp only [normalise_point, hmax r.min_x r.max_x _ _ hx, exc_bind_ok,
        hmax r.min_y r.max_y _ _ hy, exc_pure_eq]

/-- Witness for C2 at a concrete extent and canvas. -/
theorem c2_affine_corners_witness :
    ((0:ℚ) < 1 ∧ normalise 0 0 1 2 5 = .ok 2 ∧ normalise 1 0 1 2 5 = .ok 5) ∧
    ((Region.mk 0 0 1 1).min_x < (Region.mk 0 0 1 1).max_x ∧
     (Region.mk 0 0 1 1).min_y < (Region.mk 0 0 1 1).max_y ∧
     2 * (1:ℚ) < 100 ∧ 2 * (1:ℚ) < 80 ∧
     normalise_point (Region.mk 0 0 1 1) (Region.mk 1 1 (100 - 1) (80 - 1))
       ((Region.mk 0 0 1 1).min_x, (Region.mk 0 0 1 1).min_y) = .ok (1, 1) ∧
     normalise_point (Region.mk 0 0 1 1) (Region.mk 1 1 (100 - 1) (80 - 1))
       ((Region.mk 0 0 1 1).max_x, (Region.mk 0 0 1 1).max_y) = .ok (100 - 1, 80 - 1)) := by
  have h1 : (0:ℚ) < 1 := by decide
  have h2 : 2 * (1:ℚ) < 100 := by norm_num
  have h3 : 2 * (1:ℚ) < 80 := by norm_num
  refine ⟨⟨h1, (c2_affine_corners.1 0 1 2 5 h1).1, (c2_affine_corners.1 0 1 2 5 h1).2⟩,
    ⟨h1, h1, h2, h3, ?_, ?_⟩⟩
  · exact (c2_affine_corners.2 (Region.mk 0 0 1 1) 100 80 1 h1 h1 h2 h3).1
  · exact (c2_affine_corners.2 (Region.mk 0 0 1 1) 100 80 1 h1 h1 h2 h3).2

/-- C7: with both inversion flags pinned, `generate_svg` never consults
the injected random bits: the returned document — and its serialized byte
string — is the same for every random source, i.e. the render is a
deterministic function of snapshot, style and pinned flags. -/
theorem c7_deterministic (log : Bool) (f : ℚ → ℚ) (data : SensorData)
    (w h p : ℚ) (b : Bool) (hp : ℚ) (bh : Bool) (os : Option String)
    (nbf rot r1 r2 r1' r2' : Bool) :
    generate_svg log f data w h p (some b) hp (some bh) os nbf rot r1 r2 =
      generate_svg log f data w h p (some b) hp (some bh) os nbf rot r1' r2' ∧
    Except.map Elem.serialize
        (generate_svg log f data w h p (some b) hp (some bh) os nbf rot r1 r2).2 =
      Except.map Elem.serialize
        (generate_svg log f data w h p (some b) hp (some bh) os nbf rot r1' r2').2 :=
  ⟨rfl, rfl⟩

/-- C8: for a fixed snapshot and style with pinned flags, toggling
`invert` alone changes only `fill`/`stroke` color values (the documents
are equal once colors are blanked, so every coordinate is identical), and
toggling `invert_highlight` alone changes only the highlight rectangle
(the documents are equal once that rectangle is blanked) while the
rectangle keeps its `x`, `width` and grey `fill`; both hold in all four
flag combinations, so the flags act independently. -/
theorem c8_flag_orthogonality (log : Bool) (f : ℚ → ℚ) (data : SensorData)
    (w h p hp : ℚ) (os : Option String) (nbf rot r1 r2 : Bool) :
    (∀ b b' ihl : Bool,
      (generate_svg log f data w h p (some b) hp (some ihl) os nbf rot r1 r2).1 =
        (generate_svg log f data w h p (some b') hp (some ihl) os nbf rot r1 r2).1 ∧
      Except.map stripColors
          (generate_svg log f data w h p (some b) hp (some ihl) os nbf rot r1 r2).2 =
        Except.map stripColors
          (generate_svg log f data w h p (some b') hp (some ihl) os nbf rot r1 r2).2) ∧
    (∀ b ihl ihl' : Bool,
      (generate_svg log f data w h p (some b) hp (some ihl) os nbf rot r1 r2).1 =
        (generate_svg log f data w h p (some b) hp (some ihl') os nbf rot r1 r2).1 ∧
      Except.map stripHighlight
          (generate_svg log f data w h p (some b) hp (some ihl) os nbf rot r1 r2).2 =
        Except.map stripHighlight
          (generate_svg log f data w h p (some b) hp (some ihl') os nbf rot r1 r2).2 ∧
      Except.map hlStable
          (generate_svg log f data w h p (some b) hp (some ihl) os nbf rot r1 r2).2 =
        Except.map hlStable
          (generate_svg log f data w h p (some b) hp (some ihl') os nbf rot r1 r2).2) := by
  constructor
  · intro b b' ihl
    refine ⟨rfl, ?_⟩
    simp only [generate_svg, exc_map_map]
    exact exc_map_congr _ _ _ fun core =>
      stripColors_buildDoc log w h p hp (resolve_filter data os).1 rot ihl core b b'
  · intro b ihl ihl'
    refine ⟨rfl, ?_, ?_⟩
    · simp only [generate_svg, exc_map_map]
      exact exc_map_congr _ _ _ fun core =>
        stripHighlight_buildDoc log w h p hp (resolve_filter data os).1 rot b core ihl ihl'
    · simp only [generate_svg, exc_map_map]
      exact exc_map_congr _ _ _ fun core =>
        hlStable_buildDoc log w h p hp (resolve_filter data os).1 rot b core ihl ihl'

/-- C3 (amended): a snapshot whose computed data extent is degenerate on
some axis makes the render call fail, but with the `ZeroDivisionError`
raised by the division itself — the program defines no
`DegenerateRegionError` and never raises one. -/
theorem c3_degenerate_fails_with_zero_division (f : ℚ → ℚ) (data : SensorData)
    (w h p : ℚ) (inv : Option Bool) (hp : ℚ) (ihl : Option Bool)
    (nbf rot r1 r2 : Bool) {r : Region} (hr : get_data_region data = .ok r)
    (hdeg : r.max_x - r.min_x = 0 ∨ r.max_y - r.min_y = 0) :
    (generate_svg false f data w h p inv hp ihl none nbf rot r1 r2).2 =
      .error .zeroDivision ∧
    (generate_svg false f data w h p inv hp ihl none nbf rot r1 r2).2 ≠
      .error .degenerateRegion := by
  refine ⟨gen_degenerate_zero_div hr hdeg, fun hcontra => ?_⟩
  rw [gen_degenerate_zero_div hr hdeg] at hcontra
  injection hcontra with h2
  exact Err.noConfusion h2

/-- Counterexample to C3 as stated: on a concrete snapshot with a
degenerate y extent the render fails with `ZeroDivisionError`, not with a
`DegenerateRegionError`. -/
theorem c3_counterexample :
    (generate_svg false id [(("A"), [((0:ℚ), (5:ℚ)), (1, 5)])] 100 80 10 (some false)
        7 (some false) none true false false false).2 = .error .zeroDivision ∧
    (generate_svg false id [(("A"), [((0:ℚ), (5:ℚ)), (1, 5)])] 100 80 10 (some false)
        7 (some false) none true false false false).2 ≠
      .error .degenerateRegion := by
  have hr : get_data_region [(("A"), [((0:ℚ), (5:ℚ)), (1, 5)])] =
      .ok (Region.mk 0 5 1 5) := by decide
  have hdeg : (Region.mk (0:ℚ) 5 1 5).max_y - (Region.mk (0:ℚ) 5 1 5).min_y = 0 :=
    sub_self 5
  refine ⟨gen_degenerate_zero_div hr (.inr hdeg), fun hcontra => ?_⟩
  rw [gen_degenerate_zero_div hr (.inr hdeg)] at hcontra
  injection hcontra with h2
  exact Err.noConfusion h2

/-- Witness for the amended C3 at a concrete snapshot with a degenerate x
extent. -/
theorem c3_degenerate_fails_with_zero_division_witness :
    (get_data_region [(("A"), [((2:ℚ), (3:ℚ)), (2, 9)])] = .ok (Region.mk 2 3 2 9) ∧
      ((Region.mk (2:ℚ) 3 2 9).max_x - (Region.mk (2:ℚ) 3 2 9).min_x = 0 ∨
       (Region.mk (2:ℚ) 3 2 9).max_y - (Region.mk (2:ℚ) 3 2 9).min_y = 0)) ∧
    ((generate_svg false id [(("A"), [((2:ℚ), (3:ℚ)), (2, 9)])] 100 80 10 (some true)
        7 (some true) none false true false false).2 = .error .zeroDivision ∧
     (generate_svg false id [(("A"), [((2:ℚ), (3:ℚ)), (2, 9)])] 100 80 10 (some true)
        7 (some true) none false true false false).2 ≠
      .error .degenerateRegion) :=
  ⟨⟨by decide, .inl (sub_self (2:ℚ))⟩,
   @c3_degenerate_fails_with_zero_division id [(("A"), [((2:ℚ), (3:ℚ)), (2, 9)])]
     100 80 10 (some true) 7 (some true) false true false false (Region.mk 2 3 2 9)
     (by decide) (.inl (sub_self (2:ℚ)))⟩

/-- C5: under the logarithmic scale transform, any otherwise valid raw
snapshot containing a sample with a non-positive y value makes the
conversion raise the math domain error (`math.log` on a non-positive
argument), so the whole pipeline fails before any scene element is
built: the transform is applied during conversion, before extent
computation and composition. -/
theorem c5_log_domain_error (f : ℚ → ℚ) (raw : RawData)
    (hlab : raw.labels.head? = some ("Time"))
    (hlen : ∀ row ∈ raw.data, row.length = (raw.data.headD []).length)
    (hneg : ∃ row ∈ raw.data, ∃ i, 1 ≤ i ∧ i < row.length ∧ row.getD i 0 ≤ 0) :
    convert_sensor_data true f raw = .error .domainError ∧
    ∀ (w h p : ℚ) (inv : Option Bool) (hp : ℚ) (ihl : Option Bool)
      (os : Option String) (nbf rot r1 r2 : Bool),
      render_pipeline true f raw w h p inv hp ihl os nbf rot r1 r2 =
        .error .domainError := by
  obtain ⟨l0, rest, hlabels⟩ : ∃ l0 rest, raw.labels = l0 :: rest := by
    cases h : raw.labels with
    | nil => rw [h] at hlab; simp at hlab
    | cons a b => exact ⟨a, b, rfl⟩
  have hl0 : l0 = "Time" := by rw [hlabels] at hlab; simpa using hlab
  obtain ⟨row0, hrow0, i0, hi1, hi2, hineg⟩ := hneg
  obtain ⟨r0, rs, hdata⟩ : ∃ r0 rs, raw.data = r0 :: rs := by
    cases h : raw.data with
    | nil => rw [h] at hrow0; simp at hrow0
    | cons a b => exact ⟨a, b, rfl⟩
  rw [hdata] at hrow0 hlen
  have hrow0len : row0.length = r0.length := by simpa using hlen row0 hrow0
  have hconv : convert_sensor_data true f raw = .error .domainError := by
    have hall : ((r0 :: rs).all fun row => row.length = r0.length) = true := by
      rw [List.all_eq_true]
      intro row hrow
      simpa using hlen row hrow
    have hdich : ∀ (i : ℕ), ∀ row ∈ r0 :: rs,
        (do
          let y ← scale_y true f (row.getD i 0)
          pure (row.getD 0 0, y) : Except Err (ℚ × ℚ)) = .error .domainError ∨
        ∃ b, (do
          let y ← scale_y true f (row.getD i 0)
          pure (row.getD 0 0, y) : Except Err (ℚ × ℚ)) = .ok b := by
      intro i row _
      by_cases hy : row.getD i 0 ≤ 0
      · exact .inl (by rw [scale_y_true_nonpos hy]; rfl)
      · exact .inr ⟨(row.getD 0 0, f (row.getD i 0)), by rw [scale_y_true_pos hy]; rfl⟩
    have houter : mapE (fun i =>
        mapE (fun row => do
            let y ← scale_y true f (row.getD i 0)
            pure (row.getD 0 0, y))
          (r0 :: rs)) (List.range' 1 (r0.length - 1)) = .error .domainError := by
      apply mapE_error_of_mem
      · intro i _
        exact mapE_dichotomy (r0 :: rs) (hdich i)
      · refine ⟨i0, ?_, ?_⟩
        · rw [List.mem_range'_1]
          omega
        · apply mapE_error_of_mem (hdich i0)
          refine ⟨row0, hrow0, ?_⟩
          rw [scale_y_true_nonpos hineg]
          rfl
    simp only [convert_sensor_data, hlabels, hdata, hl0, ne_eq, not_true_eq_false,
      if_false, hall, Bool.true_eq_false, houter, exc_bind_error]
  exact ⟨hconv, fun w h p inv hp ihl os nbf rot r1 r2 => by
    simp only [render_pipeline, hconv]⟩

/-- Witness for C5 at a concrete two-channel snapshot with a zero sample. -/
theorem c5_log_domain_error_witness :
    ((RawData.mk [("Time"), ("A")] [[(0:ℚ), 2], [5, 0]]).labels.head? =
        some ("Time") ∧
     (∀ row ∈ (RawData.mk [("Time"), ("A")] [[(0:ℚ), 2], [5, 0]]).data,
        row.length =
          ((RawData.mk [("Time"), ("A")] [[(0:ℚ), 2], [5, 0]]).data.headD []).length) ∧
     (∃ row ∈ (RawData.mk [("Time"), ("A")] [[(0:ℚ), 2], [5, 0]]).data,
        ∃ i, 1 ≤ i ∧ i < row.length ∧ row.getD i 0 ≤ 0)) ∧
    (convert_sensor_data true id (RawData.mk [("Time"), ("A")] [[(0:ℚ), 2], [5, 0]]) =
        .error .domainError ∧
     ∀ (w h p : ℚ) (inv : Option Bool) (hp : ℚ) (ihl : Option Bool)
       (os : Option String) (nbf rot r1 r2 : Bool),
       render_pipeline true id (RawData.mk [("Time"), ("A")] [[(0:ℚ), 2], [5, 0]])
         w h p inv hp ihl os nbf rot r1 r2 = .error .domainError) :=
  ⟨⟨by decide, by decide, ⟨[(5:ℚ), 0], by decide, 1, by decide, by decide, by decide⟩⟩,
   c5_log_domain_error id (RawData.mk [("Time"), ("A")] [[(0:ℚ), 2], [5, 0]])
     (by decide) (by decide)
     ⟨[(5:ℚ), 0], by decide, 1, by decide, by decide, by decide⟩⟩

/-- C9 (amended): the conversion raises a validation `Exception` exactly
when the first label exists and differs from `"Time"`, or the first label
is `"Time"` and the nonempty rows are not all of the first row's length.
Empty labels or an empty data matrix instead crash with `IndexError`
before those checks, and a zero-channel input (labels `["Time"]` only) is
accepted, producing an empty snapshot; validation errors propagate to the
caller without retry (the conversion result is the raised error). -/
theorem c9_validation_exactly (f : ℚ → ℚ) (raw : RawData) :
    (isValidationError (convert_sensor_data false f raw) ↔
      (raw.labels ≠ [] ∧ raw.labels.headD ("") ≠ "Time") ∨
      (raw.labels.headD ("") = "Time" ∧ raw.labels ≠ [] ∧ raw.data ≠ [] ∧
        ¬ ∀ row ∈ raw.data, row.length = (raw.data.headD []).length)) ∧
    ((raw.labels = [] ∨ (raw.labels ≠ [] ∧ raw.labels.headD ("") = "Time" ∧
        raw.data = [])) →
      convert_sensor_data false f raw = .error .indexError) ∧
    (raw.labels ≠ [] → raw.labels.headD ("") = "Time" → raw.data ≠ [] →
      (∀ row ∈ raw.data, row.length = (raw.data.headD []).length) →
      ∃ snap, convert_sensor_data false f raw = .ok snap) := by
  have hval_time : isValidationError (.error .timeNotFirst : Except Err SensorData) :=
    .inl rfl
  have hval_len : isValidationError (.error .lengthMismatch : Except Err SensorData) :=
    .inr rfl
  have hnval_ok : ∀ snap : SensorData, ¬ isValidationError (.ok snap) := by
    rintro snap (h | h) <;> exact Except.noConfusion h
  have hnval_ix : ¬ isValidationError (.error .indexError : Except Err SensorData) := by
    rintro (h | h) <;> (injection h with h2; exact Err.noConfusion h2)
  rcases raw with ⟨labels, data⟩
  cases labels with
  | nil =>
    have hconv : convert_sensor_data false f (RawData.mk [] data) =
        .error .indexError := rfl
    refine ⟨?_, fun _ => hconv, fun hne => absurd rfl hne⟩
    rw [hconv]
    refine iff_of_false hnval_ix ?_
    rintro (⟨h, _⟩ | ⟨_, h, _⟩) <;> exact h rfl
  | cons l0 rest =>
    by_cases hl0 : l0 = "Time"
    · subst hl0
      cases data with
      | nil =>
        have hconv : convert_sensor_data false f
            (RawData.mk (("Time") :: rest) []) = .error .indexError := by
          simp only [convert_sensor_data]
          rw [if_neg (by simp)]
        refine ⟨?_, fun _ => hconv, ?_⟩
        · rw [hconv]
          refine iff_of_false hnval_ix ?_
          rintro (⟨_, hT⟩ | ⟨_, _, hD, _⟩)
          · exact hT rfl
          · exact hD rfl
        · intro _ _ hne _
          exact absurd rfl hne
      | cons r0 rs =>
        by_cases hall : ∀ row ∈ r0 :: rs, row.length = r0.length
        · have halltrue : ((r0 :: rs).all fun row => row.length = r0.length) = true := by
            rw [List.all_eq_true]
            intro row hrow
            simpa using hall row hrow
          have hinner : ∀ i : ℕ,
              mapE (fun row => do
                  let y ← scale_y false f (row.getD i 0)
                  pure (row.getD 0 0, y))
                (r0 :: rs) =
              .ok ((r0 :: rs).map fun row => (row.getD 0 0, row.getD i 0)) :=
            fun i => mapE_ok_of_forall fun row _ => rfl
          have hok : convert_sensor_data false f
              (RawData.mk (("Time") :: rest) (r0 :: rs)) =
              .ok (dictFromPairs (rest.zip ((List.range' 1 (r0.length - 1)).map fun i =>
                (r0 :: rs).map fun row => (row.getD 0 0, row.getD i 0)))) := by
            simp only [convert_sensor_data]
            rw [if_neg (by simp), halltrue]
            rw [if_neg (by simp)]
            rw [mapE_ok_of_forall fun i _ => hinner i]
            rfl
          refine ⟨?_, ?_, fun _ _ _ _ => ⟨_, hok⟩⟩
          · rw [hok]
            refine iff_of_false (hnval_ok _) ?_
            rintro (⟨_, hT⟩ | ⟨_, _, _, hnall⟩)
            · exact hT rfl
            · exact hnall fun row hrow => by simpa using hall row hrow
          · rintro (h | ⟨_, _, h⟩) <;> exact List.noConfusion h
        · have hallfalse : ((r0 :: rs).all fun row => row.length = r0.length) = false := by
            cases h : (r0 :: rs).all fun row => row.length = r0.length with
            | false => rfl
            | true =>
              refine absurd (fun row hrow => ?_) hall
              have := List.all_eq_true.mp h row hrow
              simpa using this
          have hconv : convert_sensor_data false f
              (RawData.mk (("Time") :: rest) (r0 :: rs)) = .error .lengthMismatch := by
            simp only [convert_sensor_data]
            rw [if_neg (by simp), hallfalse]
            rfl
          refine ⟨?_, ?_, ?_⟩
          · rw [hconv]
            refine iff_of_true hval_len
              (.inr ⟨rfl, by simp, by simp, fun hc => hall fun row hrow => ?_⟩)
            simpa using hc row hrow
          · rintro (h | ⟨_, _, h⟩) <;> exact List.noConfusion h
          · intro _ _ _ hallc
            exact absurd (fun row hrow => by simpa using hallc row hrow) hall
    · have hconv : convert_sensor_data false f (RawData.mk (l0 :: rest) data) =
          .error .timeNotFirst := by
        simp only [convert_sensor_data]
        rw [if_pos hl0]
      refine ⟨?_, ?_, ?_⟩
      · rw [hconv]
        exact iff_of_true hval_time (.inl ⟨by simp, fun hc => hl0 hc⟩)
      · rintro (h | ⟨_, hT, _⟩)
        · exact List.noConfusion h
        · exact absurd hT hl0
      · intro _ hT
        exact absurd hT hl0

/-- Counterexample to C9 as stated: a zero-channel input (malformed per
the claim) is not rejected — the conversion succeeds with an empty
snapshot and raises no validation error. -/
theorem c9_counterexample :
    convert_sensor_data false id (RawData.mk [("Time")] [[0], [1]]) = .ok [] ∧
    ¬ isValidationError (convert_sensor_data false id (RawData.mk [("Time")] [[0], [1]])) :=
  ⟨by decide, by decide⟩

/-- Witness for the amended C9: a wrong first label is reported as a
validation error. -/
theorem c9_validation_exactly_witness :
    isValidationError (convert_sensor_data false id
      (RawData.mk [("X"), ("A")] [[(1:ℚ), 2]])) :=
  (c9_validation_exactly id (RawData.mk [("X"), ("A")] [[(1:ℚ), 2]])).1.mpr
    (.inl ⟨by decide, by decide⟩)

end Claims

section ZipLemmas

theorem zip_map_fst {α β : Type} :
    ∀ (l : List α) (m : List β), (l.zip m).map Prod.fst = l.take m.length := by
  intro l
  induction l with
  | nil => intro m; simp
  | cons a t ih =>
    intro m
    cases m with
    | nil => simp
    | cons b tb => simp [ih tb]

end ZipLemmas

section MoreClaims

/-- C10 (amended): when the label count disagrees with the (uniform) row
width on an input that passes the header and length checks,
`convert_sensor_data` raises no error: it pairs `labels[1:]` with the
`row_length - 1` extracted columns, `zip` silently dropping surplus labels
or surplus columns, and the snapshot has exactly
`min(len(labels) - 1, row_length - 1)` channels provided the paired labels
are distinct (duplicate labels collapse by dict overwrite). -/
theorem c10_mismatched_widths (f : ℚ → ℚ) (rest : List String) (r0 : List ℚ)
    (rs : List (List ℚ))
    (hall : ∀ row ∈ r0 :: rs, row.length = r0.length)
    (_hmis : (("Time") :: rest).length ≠ r0.length)
    (hnd : (rest.take (r0.length - 1)).Nodup) :
    convert_sensor_data false f (RawData.mk (("Time") :: rest) (r0 :: rs)) =
      .ok (rest.zip ((List.range' 1 (r0.length - 1)).map fun i =>
        (r0 :: rs).map fun row => (row.getD 0 0, row.getD i 0))) ∧
    (rest.zip ((List.range' 1 (r0.length - 1)).map fun i =>
        (r0 :: rs).map fun row => (row.getD 0 0, row.getD i 0))).length =
      min rest.length (r0.length - 1) := by
  have halltrue : ((r0 :: rs).all fun row => row.length = r0.length) = true := by
    rw [List.all_eq_true]
    intro row hrow
    simpa using hall row hrow
  have hinner : ∀ i : ℕ,
      mapE (fun row => do
          let y ← scale_y false f (row.getD i 0)
          pure (row.getD 0 0, y))
        (r0 :: rs) =
      .ok ((r0 :: rs).map fun row => (row.getD 0 0, row.getD i 0)) :=
    fun i => mapE_ok_of_forall fun row _ => rfl
  have hptslen : ((List.range' 1 (r0.length - 1)).map fun i =>
      (r0 :: rs).map fun row => (row.getD 0 0, row.getD i 0)).length =
      r0.length - 1 := by
    rw [List.length_map, List.length_range']
  constructor
  · simp only [convert_sensor_data]
    rw [if_neg (by simp), halltrue]
    rw [if_neg (by simp)]
    rw [mapE_ok_of_forall fun i _ => hinner i]
    have hkeys : ((rest.zip ((List.range' 1 (r0.length - 1)).map fun i =>
        (r0 :: rs).map fun row => (row.getD 0 0, row.getD i 0))).map Prod.fst).Nodup := by
      rw [zip_map_fst, hptslen]
      exact hnd
    simp only [exc_bind_ok, exc_pure_eq, dictFromPairs_nodup hkeys]
  · rw [List.length_zip, hptslen]

/-- Counterexample to C10 as stated: with duplicate labels
`["Time", "A", "A"]` and rows of width 4 the label count (3) disagrees
with the row width, no error is raised, but the snapshot has 1 channel,
not `min(3 - 1, 4 - 1) = 2`: the dict comprehension collapses the
duplicate name, keeping the last paired column. -/
theorem c10_counterexample :
    convert_sensor_data false id (RawData.mk [("Time"), ("A"), ("A")]
        [[(0:ℚ), 1, 2, 3], [10, 11, 12, 13]]) =
      .ok [(("A"), [((0:ℚ), 2), (10, 12)])] ∧
    ([(("A"), [((0:ℚ), 2), (10, 12)])] : SensorData).length ≠
      min ([("Time"), ("A"), ("A")].length - 1) ([(0:ℚ), 1, 2, 3].length - 1) :=
  ⟨by decide, by decide⟩

/-- Witness for the amended C10: two labels against rows of width four —
surplus data columns are dropped and two channels result. -/
theorem c10_mismatched_widths_witness :
    ((∀ row ∈ [[(0:ℚ), 1, 2, 3], [10, 11, 12, 13]],
        row.length = [(0:ℚ), 1, 2, 3].length) ∧
     (("Time") :: [("A"), ("B")]).length ≠ [(0:ℚ), 1, 2, 3].length ∧
     ([("A"), ("B")].take ([(0:ℚ), 1, 2, 3].length - 1)).Nodup) ∧
    (convert_sensor_data false id (RawData.mk (("Time") :: [("A"), ("B")])
        ([(0:ℚ), 1, 2, 3] :: [[10, 11, 12, 13]])) =
      .ok ([("A"), ("B")].zip ((List.range' 1 ([(0:ℚ), 1, 2, 3].length - 1)).map fun i =>
        ([(0:ℚ), 1, 2, 3] :: [[10, 11, 12, 13]]).map fun row =>
          (row.getD 0 0, row.getD i 0))) ∧
     ([("A"), ("B")].zip ((List.range' 1 ([(0:ℚ), 1, 2, 3].length - 1)).map fun i =>
        ([(0:ℚ), 1, 2, 3] :: [[10, 11, 12, 13]]).map fun row =>
          (row.getD 0 0, row.getD i 0))).length =
      min [("A"), ("B")].length ([(0:ℚ), 1, 2, 3].length - 1)) :=
  ⟨⟨by decide, by decide, by decide⟩,
   c10_mismatched_widths id [("A"), ("B")] [(0:ℚ), 1, 2, 3] [[10, 11, 12, 13]]
     (by decide) (by decide) (by decide)⟩

/-- C4 (amended): rendering with a filter channel that is present in the
snapshot under a nonempty name yields, whenever the render succeeds, a
document containing exactly one polyline; rendering with an absent filter
channel emits the observable warning and returns, without any fatal
error, exactly the document of the unfiltered render with the same pinned
flags.  (A present channel named by the empty string falls through the
source's truthiness checks and is not filtered: see the counterexample.) -/
theorem c4_filter_semantics (f : ℚ → ℚ) (data : SensorData) (w h p : ℚ)
    (inv : Option Bool) (hp : ℚ) (ihl : Option Bool) (nbf rot r1 r2 : Bool)
    (s : String) :
    (∀ v : List (ℚ × ℚ), data.lookup s = some v → s ≠ "" →
      Except.map countPoly
          (generate_svg false f data w h p inv hp ihl (some s) nbf rot r1 r2).2 =
        Except.map (fun _ => (1 : ℕ))
          (generate_svg false f data w h p inv hp ihl (some s) nbf rot r1 r2).2) ∧
    (data.lookup s = none →
      generate_svg false f data w h p inv hp ihl (some s) nbf rot r1 r2 =
        ([("Ignoring request to filter non-existent field: ") ++ s],
         (generate_svg false f data w h p inv hp ihl none nbf rot r1 r2).2)) := by
  constructor
  · intro v hs hne
    exact countPoly_present hs hne
  · intro ha
    have hrf : resolve_filter data (some s) =
        (none, [("Ignoring request to filter non-existent field: ") ++ s]) := by
      simp [resolve_filter, ha]
    simp only [generate_svg]
    rw [hrf]
    rfl

/-- Counterexample to C4 as stated: the channel named by the empty string
is present in the snapshot, yet requesting it as the filter yields a
document with two polylines, not one — Python's `if only_source:`
truthiness check skips the filtering for the empty name. -/
theorem c4_counterexample :
    emptyNameData.lookup ("") = some [((0:ℚ), (0:ℚ)), (1, 1)] ∧
    Except.map countPoly
        (generate_svg false id emptyNameData 100 80 10 (some false) 5 (some false)
          (some ("")) true false false false).2 = .ok 2 ∧
    (2 : ℕ) ≠ 1 := by
  refine ⟨by decide, ?_, by decide⟩
  have hrf : resolve_filter emptyNameData (some ("")) = (some (""), []) := by decide
  have hr : get_data_region (apply_filter_early (some ("")) true emptyNameData) =
      .ok (Region.mk 0 0 1 3) := by decide
  have hx : (Region.mk (0:ℚ) 0 1 3).max_x - (Region.mk (0:ℚ) 0 1 3).min_x ≠ 0 := by
    norm_num
  have hy : (Region.mk (0:ℚ) 0 1 3).max_y - (Region.mk (0:ℚ) 0 1 3).min_y ≠ 0 := by
    norm_num
  simp only [generate_svg, hrf]
  rw [render_core_ok hr hx hy]
  simp only [exc_map_ok]
  rw [countPoly_buildDoc]
  simp +decide [apply_filter_late, apply_filter_early, emptyNameData]

/-- Witness for the amended C4: a present channel `"A"` renders to one
polyline, and an absent channel `"Z"` renders to the warned, unfiltered
document. -/
theorem c4_filter_semantics_witness :
    (sampleData.lookup ("A") = some [((0:ℚ), (0:ℚ)), (1, 2)] ∧ ("A" : String) ≠ "" ∧
      Except.map countPoly
          (generate_svg false id sampleData 100 80 10 (some false) 5 (some false)
            (some ("A")) true false false false).2 =
        Except.map (fun _ => (1 : ℕ))
          (generate_svg false id sampleData 100 80 10 (some false) 5 (some false)
            (some ("A")) true false false false).2) ∧
    (sampleData.lookup ("Z") = none ∧
      generate_svg false id sampleData 100 80 10 (some false) 5 (some false)
          (some ("Z")) true false false false =
        ([("Ignoring request to filter non-existent field: ") ++ ("Z")],
         (generate_svg false id sampleData 100 80 10 (some false) 5 (some false)
            none true false false false).2)) :=
  ⟨⟨by decide, by decide,
    (c4_filter_semantics id sampleData 100 80 10 (some false) 5 (some false)
      true false false false ("A")).1 [((0:ℚ), (0:ℚ)), (1, 2)] (by decide) (by decide)⟩,
   ⟨by decide,
    (c4_filter_semantics id sampleData 100 80 10 (some false) 5 (some false)
      true false false false ("Z")).2 (by decide)⟩⟩

/-- C6 (amended): for a present filter channel with a nonempty name: in
filter-before-normalise mode (`normalise_before_filter = false`) the
render is identical to rendering the restricted single-channel snapshot,
so the extent is computed over the filtered subset only; in the default
mode (`normalise_before_filter = true`) the render equals the unfiltered
render transformed by retitling and keeping only the filtered channel's
polyline, so the affine mapping and the highlight position come from the
full snapshot's extent; in both modes the successful output contains
exactly one polyline.  (An empty-string channel name falls through the
truthiness checks: see the counterexample.) -/
theorem c6_extent_modes (f : ℚ → ℚ) (data : SensorData) (w h p : ℚ)
    (inv : Option Bool) (hp : ℚ) (ihl : Option Bool) (rot r1 r2 : Bool)
    (s : String) (v : List (ℚ × ℚ)) (hs : data.lookup s = some v)
    (hne : s ≠ "") :
    generate_svg false f data w h p inv hp ihl (some s) false rot r1 r2 =
      generate_svg false f [(s, v)] w h p inv hp ihl (some s) false rot r1 r2 ∧
    generate_svg false f data w h p inv hp ihl (some s) true rot r1 r2 =
      ([], Except.map
        (docRestrict (keyIdx data s) (("Power consumption (") ++ s ++ (")")))
        (generate_svg false f data w h p inv hp ihl none true rot r1 r2).2) ∧
    (∀ nbf : Bool,
      Except.map countPoly
          (generate_svg false f data w h p inv hp ihl (some s) nbf rot r1 r2).2 =
        Except.map (fun _ => (1 : ℕ))
          (generate_svg false f data w h p inv hp ihl (some s) nbf rot r1 r2).2) := by
  have hrf1 : resolve_filter data (some s) = (some s, []) := by
    simp [resolve_filter, hs]
  refine ⟨?_, ?_, fun nbf => countPoly_present hs hne⟩
  · have hrf2 : resolve_filter [(s, v)] (some s) = (some s, []) := by
      simp [resolve_filter, List.lookup]
    have hcore : render_core false f data w h p hp (some s) false =
        render_core false f [(s, v)] w h p hp (some s) false := by
      simp only [render_core]
      have h1 : apply_filter_early (some s) false data = [(s, v)] := by
        simp [apply_filter_early, hne, hs]
      have h2 : apply_filter_early (some s) false [(s, v)] = [(s, v)] := by
        simp [apply_filter_early, hne, List.lookup]
      rw [h1, h2]
    simp only [generate_svg]
    rw [hrf1, hrf2, hcore]
  · simp only [generate_svg]
    rw [hrf1]
    refine congrArg (fun z => (([] : List String), z)) ?_
    have hearly1 : apply_filter_early (some s) true data = data := by
      simp [apply_filter_early]
    have hearly2 : apply_filter_early none true data = data := rfl
    simp only [render_core, hearly1, hearly2, resolve_filter]
    cases hr : get_data_region data with
    | error e => rfl
    | ok r =>
      simp only [scale_y, Bool.false_eq_true, if_false, exc_bind_ok]
      cases hn : normalise hp r.min_y r.max_y p (h - p) with
      | error e => rfl
      | ok yh =>
        simp only [exc_bind_ok]
        cases hm : normalise_data data r (Region.mk p p (w - p) (h - p)) with
        | error e => rfl
        | ok dataN =>
          simp only [exc_bind_ok, exc_pure_eq, exc_map_ok]
          obtain ⟨wN, hwN⟩ := lookup_some_of_forall2_keys (normalise_data_keys hm) hs
          have hlate1 : apply_filter_late (some s) true dataN = [(s, wN)] := by
            simp [apply_filter_late, hne, hwN]
          have hlate2 : apply_filter_late none true dataN = dataN := rfl
          have hidx : keyIdx data s = keyIdx dataN s :=
            keyIdx_of_forall2_keys (normalise_data_keys hm) s
          rw [hlate1, hlate2, hidx]
          exact congrArg Except.ok
            (docRestrict_buildDoc hwN false w h p hp rot (inv.getD r1)
              (ihl.getD r2) yh).symm

/-- Counterexample to C6 as stated: in filter-before-normalise mode with
the present empty-string channel requested, the output still contains the
polylines of both channels — the filter is never applied, and the extent
is that of the full snapshot. -/
theorem c6_counterexample :
    emptyNameData.lookup ("") = some [((0:ℚ), (0:ℚ)), (1, 1)] ∧
    Except.map countPoly
        (generate_svg false id emptyNameData 100 80 10 (some false) 5 (some false)
          (some ("")) false false false false).2 = .ok 2 ∧
    (2 : ℕ) ≠ 1 := by
  refine ⟨by decide, ?_, by decide⟩
  have hrf : resolve_filter emptyNameData (some ("")) = (some (""), []) := by decide
  have hr : get_data_region (apply_filter_early (some ("")) false emptyNameData) =
      .ok (Region.mk 0 0 1 3) := by decide
  have hx : (Region.mk (0:ℚ) 0 1 3).max_x - (Region.mk (0:ℚ) 0 1 3).min_x ≠ 0 := by
    norm_num
  have hy : (Region.mk (0:ℚ) 0 1 3).max_y - (Region.mk (0:ℚ) 0 1 3).min_y ≠ 0 := by
    norm_num
  simp only [generate_svg, hrf]
  rw [render_core_ok hr hx hy]
  simp only [exc_map_ok]
  rw [countPoly_buildDoc]
  simp +decide [apply_filter_late, apply_filter_early, emptyNameData]

/-- Witness for the amended C6 at the concrete two-channel snapshot with
channel `"A"` requested. -/
theorem c6_extent_modes_witness :
    (sampleData.lookup ("A") = some [((0:ℚ), (0:ℚ)), (1, 2)] ∧ ("A" : String) ≠ "") ∧
    (generate_svg false id sampleData 100 80 10 (some false) 5 (some false)
        (some ("A")) false false false false =
      generate_svg false id [(("A"), [((0:ℚ), (0:ℚ)), (1, 2)])] 100 80 10 (some false)
        5 (some false) (some ("A")) false false false false ∧
    generate_svg false id sampleData 100 80 10 (some false) 5 (some false)
        (some ("A")) true false false false =
      ([], Except.map
        (docRestrict (keyIdx sampleData ("A")) (("Power consumption (") ++ ("A") ++ (")")))
        (generate_svg false id sampleData 100 80 10 (some false) 5 (some false)
          none true false false false).2) ∧
    (∀ nbf : Bool,
      Except.map countPoly
          (generate_svg false id sampleData 100 80 10 (some false) 5 (some false)
            (some ("A")) nbf false false false).2 =
        Except.map (fun _ => (1 : ℕ))
          (generate_svg false id sampleData 100 80 10 (some false) 5 (some false)
            (some ("A")) nbf false false false).2)) :=
  ⟨⟨by decide, by decide⟩,
   c6_extent_modes id sampleData 100 80 10 (some false) 5 (some false) false
     false false ("A") [((0:ℚ), (0:ℚ)), (1, 2)] (by decide) (by decide)⟩

end MoreClaims
